import Mathlib

/-!
Formal model of the upsert service in app/main.py: the metadata sanitizer
(sanitize_metadata, lines 65-107), the request validator
(UpsertTextRequest.validate_text, lines 167-176), the id generator
(lines 211-215) and the upsert pipeline (upsert_text, lines 195-283).

Python values arriving as JSON metadata are modelled by the inductive type
PyVal.  External collaborators (the OpenAI embedding client and the ChromaDB
collection) are modelled as oracle functions passed to the pipeline; the
pipeline records every call it makes to them in a trace, so that claims of
the form "gateway X is never invoked" are statements about the trace.
-/

/-- Model of a Python value as it can appear in request metadata: the
primitive types accepted by ChromaDB (None, str, int, float, bool), lists,
dicts with string keys, and a catch-all for any other object, carrying the
name of its type and its str() form.  Python floats are abstracted as
rationals; no float arithmetic from the source is modelled. -/
inductive PyVal where
  | none
  | str (s : String)
  | int (n : Int)
  | float (q : Rat)
  | bool (b : Bool)
  | list (xs : List PyVal)
  | dict (kvs : List (String × PyVal))
  | other (ty : String) (sform : String)

mutual

/-- Model of Python repr() on PyVal values.  Escaping of special characters
inside string reprs is not modelled; theorems only apply it to values whose
strings contain no quotes. -/
def pyRepr : PyVal → String
  | .none => "None"
  | .str s => "\x27" ++ s ++ "\x27"
  | .int n => toString n
  | .float q => toString q
  | .bool b => if b then "True" else "False"
  | .list xs => "[" ++ String.intercalate ", " (pyReprList xs) ++ "]"
  | .dict kvs => "\x7b" ++ String.intercalate ", " (pyReprDict kvs) ++ "\x7d"
  | .other _ s => s

/-- repr() of each element of a Python list. -/
def pyReprList : List PyVal → List String
  | [] => []
  | v :: vs => pyRepr v :: pyReprList vs

/-- repr() of each key-value pair of a Python dict. -/
def pyReprDict : List (String × PyVal) → List String
  | [] => []
  | (k, v) :: kvs => ("\x27" ++ k ++ "\x27: " ++ pyRepr v) :: pyReprDict kvs

end

/-- Model of Python str() on PyVal values: identity on strings, repr-like
otherwise. -/
def pyStr : PyVal → String
  | .str s => s
  | v => pyRepr v

/-- Model of a character being escaped-free JSON text; used by jsonVal.
Escaping inside JSON strings is not modelled; theorems only apply it to
strings without special characters. -/
def jsonQuote (s : String) : String :=
  "\"" ++ s ++ "\""

mutual

/-- Model of json.dumps on a PyVal value: returns the JSON text, or fails
(TypeError in Python) when a non-serializable object occurs anywhere in the
value. -/
def jsonVal : PyVal → Option String
  | .none => some "null"
  | .str s => some (jsonQuote s)
  | .int n => some (toString n)
  | .float q => some (toString q)
  | .bool b => some (if b then "true" else "false")
  | .list xs =>
    match jsonList xs with
    | some parts => some ("[" ++ String.intercalate ", " parts ++ "]")
    | Option.none => Option.none
  | .dict kvs =>
    match jsonDict kvs with
    | some parts => some ("\x7b" ++ String.intercalate ", " parts ++ "\x7d")
    | Option.none => Option.none
  | .other _ _ => Option.none

/-- json.dumps of every element of a list, failing if any element fails. -/
def jsonList : List PyVal → Option (List String)
  | [] => some []
  | v :: vs =>
    match jsonVal v, jsonList vs with
    | some s, some rest => some (s :: rest)
    | _, _ => Option.none

/-- json.dumps of every entry of a dict, failing if any value fails. -/
def jsonDict : List (String × PyVal) → Option (List String)
  | [] => some []
  | (k, v) :: kvs =>
    match jsonVal v, jsonDict kvs with
    | some s, some rest => some ((jsonQuote k ++ ": " ++ s) :: rest)
    | _, _ => Option.none

end

/-- The keys of a Python dict modelled as an association list. -/
def keys (m : List (String × PyVal)) : List String :=
  m.map Prod.fst

/-- Python dict assignment d[k] = v on an insertion-ordered association
list: overwrite in place when the key is present, append otherwise. -/
def dictSet (m : List (String × PyVal)) (k : String) (v : PyVal) :
    List (String × PyVal) :=
  if k ∈ keys m then m.map (fun kv => if kv.1 = k then (k, v) else kv)
  else m ++ [(k, v)]

/-- Python dict lookup d.get(k): the value at the first entry whose key is
k, if any. -/
def dlookup (m : List (String × PyVal)) (k : String) : Option PyVal :=
  match m with
  | [] => Option.none
  | kv :: r => if kv.1 = k then some kv.2 else dlookup r k

/-- Whether a value already has one of the types ChromaDB accepts, exactly
the test on line 77 of app/main.py: value is None or an instance of
(str, int, float, bool). -/
def isPrim : PyVal → Bool
  | .none | .str _ | .int _ | .float _ | .bool _ => true
  | .list _ | .dict _ | .other _ _ => false

/-- One iteration of the loop body of sanitize_metadata (lines 76-100):
returns the sanitized value for the entry together with the conversion note
recorded for it, if any.  The two except-fallback branches of the source
(lines 85-87 and 94-96) are reachable in Python only when str() itself
raises or json.dumps raises on a serializable value; in this value model
str() is total, so the list fallback is unreachable, and json.dumps fails
exactly on non-serializable content. -/
def sanitizeValue (key : String) (v : PyVal) : PyVal × Option String :=
  match v with
  | .none | .str _ | .int _ | .float _ | .bool _ => (v, Option.none)
  | .list xs =>
    (.str (String.intercalate ", " (xs.map pyStr)),
     some ("\x27" ++ key ++ "\x27: list -> comma-separated string"))
  | .dict kvs =>
    match jsonVal (.dict kvs) with
    | some s => (.str s, some ("\x27" ++ key ++ "\x27: dict -> JSON string"))
    | Option.none =>
      (.str (pyStr (.dict kvs)),
       some ("\x27" ++ key ++ "\x27: dict -> string representation"))
  | .other ty s => (.str s, some ("\x27" ++ key ++ "\x27: " ++ ty ++ " -> string"))

/-- The fold step of sanitize_metadata: assign the sanitized value into the
output dict and append the conversion note, if one was produced. -/
def sanitizeStep (acc : List (String × PyVal) × List String)
    (kv : String × PyVal) : List (String × PyVal) × List String :=
  let sv := sanitizeValue kv.1 kv.2
  (dictSet acc.1 kv.1 sv.1, acc.2 ++ sv.2.toList)

/-- Model of sanitize_metadata (app/main.py lines 65-107).  Falsy (empty)
input is returned unchanged; otherwise each entry is sanitized in order,
and when any conversion occurred a note under the key
_metadata_conversions is assigned at the end (line 105). -/
def sanitize_metadata (metadata : List (String × PyVal)) :
    List (String × PyVal) :=
  if metadata.isEmpty then metadata
  else
    let r := metadata.foldl sanitizeStep ([], [])
    if r.2.isEmpty then r.1
    else
      dictSet r.1 "_metadata_conversions"
        (.str ("Applied conversions: " ++ String.intercalate "; " r.2))

/-- The entries of the sanitized dict when the input dict has no duplicate
keys: each value replaced by its sanitized form, in order. -/
def sanitizedEntries (m : List (String × PyVal)) : List (String × PyVal) :=
  m.map (fun kv => (kv.1, (sanitizeValue kv.1 kv.2).1))

/-- The list of conversion notes produced while sanitizing a dict, in entry
order. -/
def conversionNotes (m : List (String × PyVal)) : List String :=
  (m.map (fun kv => ((sanitizeValue kv.1 kv.2).2).toList)).flatten

/-- Whitespace characters stripped by Python str.strip(); the ASCII subset
(space, tab, newline, carriage return, vertical tab, form feed).  Exotic
unicode whitespace is not modelled. -/
def isPySpace (c : Char) : Bool :=
  c = ' ' || c = '\t' || c = '\n' || c = '\r' || c = '\x0b' || c = '\x0c'

/-- Model of Python str.strip(): drop leading and trailing whitespace. -/
def pyStrip (s : String) : String :=
  ⟨((s.data.dropWhile isPySpace).reverse.dropWhile isPySpace).reverse⟩

/-- Model of the validate_text validator of UpsertTextRequest
(app/main.py lines 172-176): reject when the text is empty or whitespace
only, otherwise return the stripped text. -/
def validate_text (v : String) : Except String String :=
  if v = "" || pyStrip v = "" then
    .error "Text content cannot be empty or whitespace only"
  else .ok (pyStrip v)

/-- The raw request body of POST /upsert-text before validation
(app/main.py lines 167-176): text, optional metadata dict, optional id. -/
structure RawUpsertRequest where
  text : String
  metadata : Option (List (String × PyVal))
  id : Option String

/-- A validated UpsertTextRequest: text is already stripped by the
validator. -/
structure UpsertTextRequest where
  text : String
  metadata : Option (List (String × PyVal))
  id : Option String

/-- Pydantic validation of the request model (app/main.py lines 167-176):
the Field length bounds 1..50000 on text, then the validate_text
validator. -/
def validateRequest (raw : RawUpsertRequest) :
    Except String UpsertTextRequest :=
  if raw.text.length < 1 || raw.text.length > 50000 then
    .error "ensure this value has at most 50000 characters"
  else
    match validate_text raw.text with
    | .error e => .error e
    | .ok t => .ok ⟨t, raw.metadata, raw.id⟩

/-- UTF-8 encoding of one unicode scalar value as byte values; models
Python str.encode() per character. -/
def utf8EncodeCharNat (n : Nat) : List Nat :=
  if n < 0x80 then [n]
  else if n < 0x800 then
    [0xC0 ||| (n >>> 6), 0x80 ||| (n &&& 0x3F)]
  else if n < 0x10000 then
    [0xE0 ||| (n >>> 12), 0x80 ||| ((n >>> 6) &&& 0x3F), 0x80 ||| (n &&& 0x3F)]
  else
    [0xF0 ||| (n >>> 18), 0x80 ||| ((n >>> 12) &&& 0x3F),
     0x80 ||| ((n >>> 6) &&& 0x3F), 0x80 ||| (n &&& 0x3F)]

/-- Model of Python text.encode(): the UTF-8 bytes of a string. -/
def utf8Bytes (s : String) : List Nat :=
  (s.data.map (fun c => utf8EncodeCharNat c.toNat)).flatten

/-- The 64 MD5 round constants floor(abs(sin(i+1)) * 2^32) (RFC 1321). -/
def md5K : List Nat := [
  3614090360, 3905402710, 606105819, 3250441966,
  4118548399, 1200080426, 2821735955, 4249261313,
  1770035416, 2336552879, 4294925233, 2304563134,
  1804603682, 4254626195, 2792965006, 1236535329,
  4129170786, 3225465664, 643717713, 3921069994,
  3593408605, 38016083, 3634488961, 3889429448,
  568446438, 3275163606, 4107603335, 1163531501,
  2850285829, 4243563512, 1735328473, 2368359562,
  4294588738, 2272392833, 1839030562, 4259657740,
  2763975236, 1272893353, 4139469664, 3200236656,
  681279174, 3936430074, 3572445317, 76029189,
  3654602809, 3873151461, 530742520, 3299628645,
  4096336452, 1126891415, 2878612391, 4237533241,
  1700485571, 2399980690, 4293915773, 2240044497,
  1873313359, 4264355552, 2734768916, 1309151649,
  4149444226, 3174756917, 718787259, 3951481745]

/-- The 64 MD5 per-round left-rotation amounts (RFC 1321). -/
def md5S : List Nat := [
  7, 12, 17, 22, 7, 12, 17, 22, 7, 12, 17, 22, 7, 12, 17, 22,
  5, 9, 14, 20, 5, 9, 14, 20, 5, 9, 14, 20, 5, 9, 14, 20,
  4, 11, 16, 23, 4, 11, 16, 23, 4, 11, 16, 23, 4, 11, 16, 23,
  6, 10, 15, 21, 6, 10, 15, 21, 6, 10, 15, 21, 6, 10, 15, 21]

/-- Left rotation of a 32-bit word, on naturals below 2^32. -/
def rotl32 (x c : Nat) : Nat :=
  ((x * 2 ^ c) % 4294967296) + (x / 2 ^ (32 - c))

/-- The four 32-bit words of MD5 state. -/
structure MD5State where
  a : Nat
  b : Nat
  c : Nat
  d : Nat

/-- MD5 padding: append the 0x80 marker, zero bytes up to 56 mod 64, then
the 64-bit little-endian bit length. -/
def md5Pad (msg : List Nat) : List Nat :=
  let len := msg.length
  let zeros := (56 + 64 - ((len + 1) % 64)) % 64
  msg ++ [128] ++ List.replicate zeros 0 ++
    ((List.range 8).map (fun i => ((len * 8) >>> (8 * i)) % 256))

/-- The sixteen little-endian 32-bit words of one 64-byte MD5 block. -/
def wordsOf (block : List Nat) : List Nat :=
  (List.range 16).map (fun j =>
    block.getD (4 * j) 0 + block.getD (4 * j + 1) 0 * 256 +
    block.getD (4 * j + 2) 0 * 65536 + block.getD (4 * j + 3) 0 * 16777216)

/-- The sequence of 64-byte blocks of a padded MD5 message. -/
def blocksOf (l : List Nat) : List (List Nat) :=
  (List.range (l.length / 64)).map (fun i => ((l.drop (64 * i)).take 64))

/-- One of the 64 MD5 rounds (RFC 1321); all arithmetic modulo 2^32. -/
def md5Step (M : List Nat) (st : MD5State) (i : Nat) : MD5State :=
  let fg : Nat × Nat :=
    if i < 16 then ((st.b &&& st.c) ||| ((4294967295 - st.b) &&& st.d), i)
    else if i < 32 then
      ((st.d &&& st.b) ||| ((4294967295 - st.d) &&& st.c), (5 * i + 1) % 16)
    else if i < 48 then (st.b ^^^ st.c ^^^ st.d, (3 * i + 5) % 16)
    else (st.c ^^^ (st.b ||| (4294967295 - st.d)), (7 * i) % 16)
  let f := (fg.1 + st.a + md5K.getD i 0 + M.getD fg.2 0) % 4294967296
  ⟨st.d, (st.b + rotl32 f (md5S.getD i 0)) % 4294967296, st.b, st.c⟩

/-- Processing of one 64-byte block: run the 64 rounds and add the result
into the state, modulo 2^32. -/
def md5Block (st : MD5State) (block : List Nat) : MD5State :=
  let M := wordsOf block
  let r := (List.range 64).foldl (md5Step M) st
  ⟨(st.a + r.a) % 4294967296, (st.b + r.b) % 4294967296,
   (st.c + r.c) % 4294967296, (st.d + r.d) % 4294967296⟩

/-- The MD5 state after absorbing a whole message, from the standard
initialization vector. -/
def md5Core (msg : List Nat) : MD5State :=
  (blocksOf (md5Pad msg)).foldl md5Block
    ⟨1732584193, 4023233417, 2562383102, 271733878⟩

/-- Lowercase hexadecimal digit for a value below 16. -/
def hexDigitOf (n : Nat) : Char :=
  if n < 10 then Char.ofNat (48 + n) else Char.ofNat (87 + n)

/-- Two lowercase hex characters of one byte, high nibble first. -/
def hexByte (b : Nat) : List Char :=
  [hexDigitOf (b / 16), hexDigitOf (b % 16)]

/-- The four little-endian bytes of a 32-bit word. -/
def word4LE (w : Nat) : List Nat :=
  [w % 256, (w >>> 8) % 256, (w >>> 16) % 256, (w >>> 24) % 256]

/-- Model of hashlib.md5(text.encode()).hexdigest() (app/main.py line 213):
the lowercase hex digest of the MD5 hash of the UTF-8 bytes of a string. -/
def md5Hex (s : String) : String :=
  let st := md5Core (utf8Bytes s)
  ⟨((word4LE st.a ++ word4LE st.b ++ word4LE st.c ++ word4LE st.d).map
      hexByte).flatten⟩

/-- Model of the generated document id (app/main.py lines 212-215): the MD5
hex digest of the text joined by an underscore to the decimal millisecond
timestamp int(time.time() * 1000), which is passed in as a natural. -/
def generate_id (text : String) (nowMs : Nat) : String :=
  md5Hex text ++ "_" ++ Nat.repr nowMs

/-- Resolution of the document id (app/main.py lines 209-215): the
caller-supplied id when it is truthy, a generated id when the caller
supplied none or the empty string (Python: if not vector_id). -/
def resolveId (text : String) (suppliedId : Option String) (nowMs : Nat) :
    String :=
  match suppliedId with
  | some i => if i = "" then generate_id text nowMs else i
  | Option.none => generate_id text nowMs

/-- Exceptions the vector store upsert can raise: a ChromaError (the only
class caught on line 249 of app/main.py), or any other exception. -/
inductive StoreExc where
  | chromaError (msg : String)
  | otherExc (msg : String)

/-- The error taxonomy of the upsert endpoint as raised by upsert_text:
503 service not initialized, 502 embedding failure, 502 store failure,
500 unexpected exception. -/
inductive UpsertError where
  | serviceUnavailable
  | embeddingUnavailable
  | storeUnavailable
  | internalError
deriving DecidableEq

/-- The HTTP status code attached to each error in app/main.py
(lines 203, 232, 252, 281). -/
def statusCode : UpsertError → Nat
  | .serviceUnavailable => 503
  | .embeddingUnavailable => 502
  | .storeUnavailable => 502
  | .internalError => 500

/-- The record handed to collection.upsert (app/main.py lines 236-248):
id, embedding vector, document text and sanitized metadata. -/
structure DocumentRecord where
  id : String
  embedding : List Rat
  document : String
  metadata : List (String × PyVal)

/-- A call made by the pipeline to an external gateway: an embed_query call
to the embedding client, or an upsert call to the store collection. -/
inductive GatewayCall where
  | embedCall (text : String)
  | upsertCall (rec : DocumentRecord)

/-- The success body of POST /upsert-text (app/main.py lines 178-182 and
264-269). -/
structure UpsertResponse where
  status : String
  documents_upserted : Nat
  ids : List String
  processing_time_ms : Rat
deriving DecidableEq

/-- The metadata handed to sanitization (app/main.py lines 217-221): the
caller-supplied dict updated with upserted_at (current time, a float) and
text_length (character count of the stripped text), in that order. -/
def baseMetadata (caller : List (String × PyVal)) (now : Rat)
    (textLen : Nat) : List (String × PyVal) :=
  dictSet (dictSet caller "upserted_at" (.float now)) "text_length"
    (.int textLen)

/-- Model of the body of upsert_text (app/main.py lines 195-283) on an
already validated request.  The clock values that the handler reads are
passed in: nowMs is int(time.time() * 1000) for id generation, now is
time.time() for the upserted_at metadata field, elapsedMs the measured
processing time.  The embedding client and the store collection are
oracles; the second component of the result is the trace of gateway calls
made.  A ChromaError from the store is caught on line 249 and mapped to
502; any other exception from it reaches the generic handler on line 273
and is mapped to 500; any exception from embed_query is caught on line 229
and mapped to 502. -/
def upsert_text (initialized : Bool) (req : UpsertTextRequest)
    (nowMs : Nat) (now : Rat) (elapsedMs : Rat)
    (embed : String → Except String (List Rat))
    (storeUpsert : DocumentRecord → Except StoreExc Unit) :
    Except UpsertError UpsertResponse × List GatewayCall :=
  if !initialized then (.error .serviceUnavailable, [])
  else
    let text := req.text
    let callerMeta := req.metadata.getD []
    let vector_id := resolveId text req.id nowMs
    let metadata := sanitize_metadata (baseMetadata callerMeta now text.length)
    match embed text with
    | .error _ => (.error .embeddingUnavailable, [.embedCall text])
    | .ok vec =>
      let record : DocumentRecord := ⟨vector_id, vec, text, metadata⟩
      match storeUpsert record with
      | .error (.chromaError _) =>
        (.error .storeUnavailable, [.embedCall text, .upsertCall record])
      | .error (.otherExc _) =>
        (.error .internalError, [.embedCall text, .upsertCall record])
      | .ok _ =>
        (.ok ⟨"success", 1, [vector_id], elapsedMs⟩,
         [.embedCall text, .upsertCall record])

/-- Errors visible at the HTTP surface for POST /upsert-text: a validation
rejection of the request body, or an error raised by the handler body. -/
inductive ApiError where
  | invalidInput (msg : String)
  | upsertFailure (e : UpsertError)

/-- The endpoint seen from outside: pydantic validation of the raw body,
then the handler body.  Validation failure produces an invalid-input error
before the handler runs, so the gateway trace is empty. -/
def handle_upsert (initialized : Bool) (raw : RawUpsertRequest)
    (nowMs : Nat) (now : Rat) (elapsedMs : Rat)
    (embed : String → Except String (List Rat))
    (storeUpsert : DocumentRecord → Except StoreExc Unit) :
    Except ApiError UpsertResponse × List GatewayCall :=
  match validateRequest raw with
  | .error m => (.error (.invalidInput m), [])
  | .ok req =>
    let r := upsert_text initialized req nowMs now elapsedMs embed storeUpsert
    (match r.1 with
     | .error e => .error (.upsertFailure e)
     | .ok resp => .ok resp, r.2)

/-- Whether an endpoint result is a validation (invalid input) rejection. -/
def isInvalidInput : Except ApiError UpsertResponse → Bool
  | .error (.invalidInput _) => true
  | _ => false

/-- Whether a gateway call is a store upsert call. -/
def isUpsertCall : GatewayCall → Bool
  | .upsertCall _ => true
  | .embedCall _ => false

/-! ### Decimal rendering round-trip, for distinctness of generated ids -/

/-- Decimal decoding of a digit string, most significant digit first. -/
def decodeDigits : List Char → Nat → Nat
  | [], acc => acc
  | c :: cs, acc => decodeDigits cs (acc * 10 + (c.toNat - 48))

/-- Number of decimal digits of a natural number (at least one). -/
def digitsLen (n : Nat) : Nat :=
  if n < 10 then 1 else digitsLen (n / 10) + 1
decreasing_by exact Nat.div_lt_self (by omega) (by omega)

theorem digitChar_toNat_sub (m : Nat) (h : m < 10) :
    (Nat.digitChar m).toNat - 48 = m := by
  interval_cases m <;> rfl

theorem decode_toDigitsCore (fuel : Nat) :
    ∀ (n : Nat) (ds : List Char) (acc : Nat), n < fuel →
      decodeDigits (Nat.toDigitsCore 10 fuel n ds) acc
        = decodeDigits ds (acc * 10 ^ digitsLen n + n) := by
  induction fuel with
  | zero => intro n ds acc h; omega
  | succ fuel ih =>
    intro n ds acc h
    by_cases h10 : n / 10 = 0
    · have hn : n < 10 := by omega
      have hlen : digitsLen n = 1 := by rw [digitsLen]; simp [hn]
      simp only [Nat.toDigitsCore, h10, if_true, decodeDigits, hlen]
      rw [digitChar_toNat_sub (n % 10) (by omega)]
      have hmod : n % 10 = n := Nat.mod_eq_of_lt hn
      rw [hmod, pow_one]
    · have hn : 10 ≤ n := by omega
      have hfuel : n / 10 < fuel := by omega
      have hlen : digitsLen n = digitsLen (n / 10) + 1 := by
        rw [digitsLen]; simp [show ¬ n < 10 by omega]
      simp only [Nat.toDigitsCore, h10, if_false]
      rw [ih (n / 10) (Nat.digitChar (n % 10) :: ds) acc hfuel]
      simp only [decodeDigits]
      rw [digitChar_toNat_sub (n % 10) (by omega), hlen, pow_succ]
      congr 1
      have hdm : 10 * (n / 10) + n % 10 = n := Nat.div_add_mod n 10
      ring_nf
      omega

theorem decode_repr (n : Nat) : decodeDigits (Nat.repr n).data 0 = n := by
  have h := decode_toDigitsCore (n + 1) n [] 0 (Nat.lt_succ_self n)
  simpa [Nat.repr, Nat.toDigits, List.asString, decodeDigits] using h

theorem natRepr_injective : Function.Injective Nat.repr := by
  intro a b h
  have h2 := congrArg (fun s => decodeDigits s.data 0) h
  simpa [decode_repr] using h2

/-- Two generated ids built from the same text at different millisecond
timestamps differ: the hash prefix agrees, so equality of the ids would
force equality of the decimal timestamp suffixes. -/
theorem generate_id_ne (text : String) (ms1 ms2 : Nat) (h : ms1 ≠ ms2) :
    generate_id text ms1 ≠ generate_id text ms2 := by
  intro he
  apply h
  apply natRepr_injective
  have hd := congrArg String.data he
  simp only [generate_id, String.data_append] at hd
  exact String.ext (List.append_cancel_left hd)

/-! ### Dictionary lemmas -/

theorem dlookup_map_override (m : List (String × PyVal)) (k : String)
    (v : PyVal) (hmem : k ∈ keys m) :
    dlookup (m.map (fun kv => if kv.1 = k then (k, v) else kv)) k = some v := by
  induction m with
  | nil => simp [keys] at hmem
  | cons hd r ih =>
    by_cases hk : hd.1 = k
    · simp [dlookup, hk]
    · have hr : k ∈ keys r := by
        simp only [keys, List.map_cons, List.mem_cons] at hmem
        rcases hmem with h | h
        · exact absurd h.symm hk
        · exact h
      simp [dlookup, hk, ih hr]

theorem dlookup_append_single (m : List (String × PyVal)) (k : String)
    (v : PyVal) (hmem : k ∉ keys m) :
    dlookup (m ++ [(k, v)]) k = some v := by
  induction m with
  | nil => simp [dlookup]
  | cons hd r ih =>
    have hk : hd.1 ≠ k := by
      intro he; exact hmem (by simp [keys, he])
    have hr : k ∉ keys r := by
      intro hc; exact hmem (by simp [keys] at hc ⊢; tauto)
    simp [dlookup, hk, ih hr]

theorem dlookup_dictSet_self (m : List (String × PyVal)) (k : String)
    (v : PyVal) : dlookup (dictSet m k v) k = some v := by
  unfold dictSet
  by_cases hmem : k ∈ keys m
  · simp only [hmem, if_true]
    exact dlookup_map_override m k v hmem
  · simp only [hmem, if_false]
    exact dlookup_append_single m k v hmem

theorem dlookup_map_override_ne (m : List (String × PyVal)) (k : String)
    (v : PyVal) (k2 : String) (h : k2 ≠ k) :
    dlookup (m.map (fun kv => if kv.1 = k then (k, v) else kv)) k2
      = dlookup m k2 := by
  induction m with
  | nil => rfl
  | cons hd r ih =>
    by_cases hk : hd.1 = k
    · have hne : k ≠ k2 := Ne.symm h
      simp [dlookup, hk, hne, ih]
    · by_cases hk2 : hd.1 = k2
      · simp [dlookup, hk, hk2, h]
      · simp [dlookup, hk, hk2, ih]

theorem dlookup_append_single_ne (m : List (String × PyVal)) (k : String)
    (v : PyVal) (k2 : String) (h : k2 ≠ k) :
    dlookup (m ++ [(k, v)]) k2 = dlookup m k2 := by
  induction m with
  | nil => simp [dlookup, Ne.symm h]
  | cons hd r ih =>
    by_cases hk2 : hd.1 = k2 <;> simp [dlookup, hk2, ih]

theorem dlookup_dictSet_ne (m : List (String × PyVal)) (k : String)
    (v : PyVal) (k2 : String) (h : k2 ≠ k) :
    dlookup (dictSet m k v) k2 = dlookup m k2 := by
  unfold dictSet
  by_cases hmem : k ∈ keys m
  · simp only [hmem, if_true]
    exact dlookup_map_override_ne m k v k2 h
  · simp only [hmem, if_false]
    exact dlookup_append_single_ne m k v k2 h

theorem dictSet_fresh (m : List (String × PyVal)) (k : String) (v : PyVal)
    (hmem : k ∉ keys m) : dictSet m k v = m ++ [(k, v)] := by
  unfold dictSet
  simp [hmem]

theorem keys_dictSet (m : List (String × PyVal)) (k : String) (v : PyVal) :
    keys (dictSet m k v) = if k ∈ keys m then keys m else keys m ++ [k] := by
  by_cases hmem : k ∈ keys m
  · rw [dictSet, if_pos hmem, if_pos hmem]
    simp only [keys, List.map_map]
    refine List.map_congr_left ?_
    intro kv _
    by_cases hk : kv.1 = k
    · simp [Function.comp, hk]
    · simp [Function.comp, hk]
  · rw [dictSet, if_neg hmem, if_neg hmem]
    simp [keys]

theorem nodup_keys_dictSet (m : List (String × PyVal)) (k : String)
    (v : PyVal) (h : (keys m).Nodup) : (keys (dictSet m k v)).Nodup := by
  rw [keys_dictSet]
  by_cases hmem : k ∈ keys m
  · simpa [hmem] using h
  · simp [hmem, List.nodup_append, h, hmem]

/-! ### Sanitizer lemmas -/

theorem sanitizeValue_of_prim (k : String) (v : PyVal)
    (h : isPrim v = true) : sanitizeValue k v = (v, Option.none) := by
  cases v <;> simp [isPrim] at h <;> rfl

theorem isPrim_sanitizeValue (k : String) (v : PyVal) :
    isPrim (sanitizeValue k v).1 = true := by
  cases v <;> simp [sanitizeValue, isPrim]
  case dict kvs =>
    cases jsonVal (.dict kvs) <;> simp [isPrim]

theorem foldl_sanitizeStep (m : List (String × PyVal)) :
    ∀ (s : List (String × PyVal)) (notes : List String),
      (keys m).Nodup → (∀ k ∈ keys m, k ∉ keys s) →
      m.foldl sanitizeStep (s, notes)
        = (s ++ sanitizedEntries m, notes ++ conversionNotes m) := by
  induction m with
  | nil =>
    intro s notes _ _
    simp [sanitizedEntries, conversionNotes]
  | cons kv r ih =>
    intro s notes hnodup hdisj
    have hkeys : keys (kv :: r) = kv.1 :: keys r := by simp [keys]
    have hnodup2 : (kv.1 :: keys r).Nodup := by rwa [hkeys] at hnodup
    have hfresh : kv.1 ∉ keys s := hdisj kv.1 (by simp [keys])
    have hstep : sanitizeStep (s, notes) kv
        = (s ++ [(kv.1, (sanitizeValue kv.1 kv.2).1)],
           notes ++ (sanitizeValue kv.1 kv.2).2.toList) := by
      simp [sanitizeStep, dictSet_fresh s kv.1 _ hfresh]
    rw [List.foldl_cons, hstep,
        ih _ _ (List.nodup_cons.mp hnodup2).2 ?_]
    · simp [sanitizedEntries, conversionNotes, List.append_assoc]
    · intro k hk
      have hks : k ∉ keys s := hdisj k (by rw [hkeys]; exact List.mem_cons_of_mem _ hk)
      have hne : k ≠ kv.1 := by
        intro he
        exact (List.nodup_cons.mp hnodup2).1 (he ▸ hk)
      simp [keys, List.mem_append]
      constructor
      · simpa [keys] using hks
      · exact hne

theorem sanitize_metadata_eq (m : List (String × PyVal))
    (h : (keys m).Nodup) :
    sanitize_metadata m =
      if (conversionNotes m).isEmpty then sanitizedEntries m
      else
        dictSet (sanitizedEntries m) "_metadata_conversions"
          (.str ("Applied conversions: "
            ++ String.intercalate "; " (conversionNotes m))) := by
  unfold sanitize_metadata
  by_cases hm : m.isEmpty
  · have hnil : m = [] := by simpa using hm
    subst hnil
    simp [sanitizedEntries, conversionNotes]
  · rw [if_neg hm,
        foldl_sanitizeStep m [] [] h (by intro k _; simp [keys])]
    simp

theorem keys_sanitizedEntries (m : List (String × PyVal)) :
    keys (sanitizedEntries m) = keys m := by
  simp only [keys, sanitizedEntries, List.map_map]
  exact List.map_congr_left (fun kv _ => rfl)

theorem mem_sanitizedEntries (m : List (String × PyVal)) (k : String)
    (v : PyVal) (hmem : (k, v) ∈ m) :
    (k, (sanitizeValue k v).1) ∈ sanitizedEntries m :=
  List.mem_map_of_mem _ hmem

theorem mem_conversionNotes (m : List (String × PyVal)) (k : String)
    (v : PyVal) (note : String) (hmem : (k, v) ∈ m)
    (hnote : (sanitizeValue k v).2 = some note) :
    note ∈ conversionNotes m := by
  unfold conversionNotes
  rw [List.mem_flatten]
  refine ⟨((sanitizeValue k v).2).toList, List.mem_map_of_mem _ hmem, ?_⟩
  simp [hnote]

theorem dlookup_eq_of_mem_nodup (m : List (String × PyVal)) (k : String)
    (v : PyVal) (hnodup : (keys m).Nodup) (hmem : (k, v) ∈ m) :
    dlookup m k = some v := by
  induction m with
  | nil => cases hmem
  | cons hd r ih =>
    have hkeys : keys (hd :: r) = hd.1 :: keys r := by simp [keys]
    have hnodup2 : (hd.1 :: keys r).Nodup := by rwa [hkeys] at hnodup
    rcases List.mem_cons.mp hmem with h | h
    · rw [← h]
      simp [dlookup]
    · have hk : hd.1 ≠ k := by
        intro he
        have hkr : k ∈ keys r := by
          simp only [keys, List.mem_map]
          exact ⟨(k, v), h, rfl⟩
        exact (List.nodup_cons.mp hnodup2).1 (he ▸ hkr)
      simp [dlookup, hk, ih (List.nodup_cons.mp hnodup2).2 h]

theorem mem_of_dlookup (m : List (String × PyVal)) (k : String) (v : PyVal)
    (h : dlookup m k = some v) : (k, v) ∈ m := by
  induction m with
  | nil => cases h
  | cons hd r ih =>
    by_cases hk : hd.1 = k
    · simp only [dlookup, hk, if_true, Option.some.injEq] at h
      have : (k, v) = hd := by
        cases hd
        simp_all
      rw [this]
      exact List.mem_cons_self _ _
    · simp only [dlookup, hk, if_false] at h
      exact List.mem_cons_of_mem _ (ih h)

/-- Lookup of a key whose value is already primitive is unchanged by
sanitization, provided the dict has no duplicate keys and the key is not
the reserved conversion-note key. -/
theorem dlookup_sanitize_metadata (m : List (String × PyVal)) (k : String)
    (v : PyVal) (hnodup : (keys m).Nodup)
    (hk : k ≠ "_metadata_conversions") (hmem : (k, v) ∈ m)
    (hp : isPrim v = true) :
    dlookup (sanitize_metadata m) k = some v := by
  rw [sanitize_metadata_eq m hnodup]
  have hse : dlookup (sanitizedEntries m) k = some v := by
    have h2 := dlookup_eq_of_mem_nodup (sanitizedEntries m) k
      ((sanitizeValue k v).1)
      (by rw [keys_sanitizedEntries]; exact hnodup)
      (mem_sanitizedEntries m k v hmem)
    rwa [sanitizeValue_of_prim k v hp] at h2
  split
  · exact hse
  · rw [dlookup_dictSet_ne _ _ _ _ hk]
    exact hse

theorem allPrim_dictSet (m : List (String × PyVal)) (k : String) (v : PyVal)
    (hm : ∀ kv ∈ m, isPrim kv.2 = true) (hv : isPrim v = true) :
    ∀ kv ∈ dictSet m k v, isPrim kv.2 = true := by
  intro kv hkv
  unfold dictSet at hkv
  by_cases hmem : k ∈ keys m
  · rw [if_pos hmem] at hkv
    rcases List.mem_map.mp hkv with ⟨kv0, hkv0, heq⟩
    by_cases hk : kv0.1 = k
    · rw [if_pos hk] at heq
      rw [← heq]
      exact hv
    · rw [if_neg hk] at heq
      rw [← heq]
      exact hm kv0 hkv0
  · rw [if_neg hmem] at hkv
    rcases List.mem_append.mp hkv with h | h
    · exact hm kv h
    · rw [List.mem_singleton.mp h]
      exact hv

theorem allPrim_foldl (m : List (String × PyVal)) :
    ∀ (s : List (String × PyVal)) (notes : List String),
      (∀ kv ∈ s, isPrim kv.2 = true) →
      ∀ kv ∈ (m.foldl sanitizeStep (s, notes)).1, isPrim kv.2 = true := by
  induction m with
  | nil =>
    intro s notes hs
    simpa using hs
  | cons hd r ih =>
    intro s notes hs
    rw [List.foldl_cons]
    exact ih _ _ (allPrim_dictSet s hd.1 _ hs (isPrim_sanitizeValue hd.1 hd.2))

theorem sanitize_metadata_shape (m : List (String × PyVal))
    (hm : ¬ m.isEmpty) :
    sanitize_metadata m =
      (if (m.foldl sanitizeStep ([], [])).2.isEmpty
       then (m.foldl sanitizeStep ([], [])).1
       else
         dictSet (m.foldl sanitizeStep ([], [])).1 "_metadata_conversions"
           (.str ("Applied conversions: "
             ++ String.intercalate "; " (m.foldl sanitizeStep ([], [])).2))) := by
  unfold sanitize_metadata
  rw [if_neg hm]

/-! ### Pipeline shape lemmas -/

theorem upsert_text_upsertCall (req : UpsertTextRequest) (nowMs : Nat)
    (now elapsedMs : Rat) (embed : String → Except String (List Rat))
    (storeUpsert : DocumentRecord → Except StoreExc Unit)
    (rec : DocumentRecord)
    (hmem : GatewayCall.upsertCall rec
      ∈ (upsert_text true req nowMs now elapsedMs embed storeUpsert).2) :
    rec.id = resolveId req.text req.id nowMs
    ∧ rec.document = req.text
    ∧ rec.metadata = sanitize_metadata
        (baseMetadata (req.metadata.getD []) now req.text.length)
    ∧ embed req.text = .ok rec.embedding := by
  unfold upsert_text at hmem
  simp only [Bool.not_true, Bool.false_eq_true, if_false] at hmem
  cases hembed : embed req.text with
  | error e =>
    simp only [hembed] at hmem
    simp at hmem
  | ok vec =>
    simp only [hembed] at hmem
    split at hmem <;>
      (simp at hmem; rw [hmem]; exact ⟨rfl, rfl, rfl, rfl⟩)

theorem upsert_text_ok_ids (req : UpsertTextRequest) (nowMs : Nat)
    (now elapsedMs : Rat) (embed : String → Except String (List Rat))
    (storeUpsert : DocumentRecord → Except StoreExc Unit)
    (resp : UpsertResponse)
    (hok : (upsert_text true req nowMs now elapsedMs embed storeUpsert).1
      = .ok resp) :
    resp.ids = [resolveId req.text req.id nowMs] := by
  unfold upsert_text at hok
  simp only [Bool.not_true, Bool.false_eq_true, if_false] at hok
  cases hembed : embed req.text with
  | error e =>
    simp only [hembed] at hok
    simp at hok
  | ok vec =>
    simp only [hembed] at hok
    split at hok
    · simp at hok
    · simp at hok
    · simp at hok
      subst hok
      rfl

/-! ### Claims -/

/-- C1: a request whose text is empty or whitespace-only after stripping is
rejected as invalid input by validation, and the gateway call trace is
empty: neither the embedding gateway nor the vector store gateway is
invoked before the rejection. -/
theorem upsert_rejects_blank_text_before_gateways (initialized : Bool)
    (raw : RawUpsertRequest) (nowMs : Nat) (now elapsedMs : Rat)
    (embed : String → Except String (List Rat))
    (storeUpsert : DocumentRecord → Except StoreExc Unit)
    (h : pyStrip raw.text = "") :
    isInvalidInput
      (handle_upsert initialized raw nowMs now elapsedMs embed storeUpsert).1
      = true
    ∧ (handle_upsert initialized raw nowMs now elapsedMs embed
        storeUpsert).2 = [] := by
  have hval : ∃ msg, validateRequest raw = Except.error msg := by
    unfold validateRequest
    by_cases hlen : (raw.text.length < 1 || raw.text.length > 50000) = true
    · exact ⟨_, by rw [if_pos hlen]⟩
    · refine ⟨"Text content cannot be empty or whitespace only", ?_⟩
      rw [if_neg hlen]
      unfold validate_text
      rw [if_pos (by simp [h])]
  obtain ⟨msg, hval⟩ := hval
  unfold handle_upsert
  rw [hval]
  exact ⟨rfl, rfl⟩

/-- Witness for C1 at the concrete whitespace-only text of the spec. -/
theorem upsert_rejects_blank_text_witness :
    isInvalidInput
      (handle_upsert true ⟨"   ", Option.none, Option.none⟩ 0 0 0
        (fun _ => Except.ok []) (fun _ => Except.ok ())).1 = true
    ∧ (handle_upsert true ⟨"   ", Option.none, Option.none⟩ 0 0 0
        (fun _ => Except.ok []) (fun _ => Except.ok ())).2 = [] :=
  upsert_rejects_blank_text_before_gateways true
    ⟨"   ", Option.none, Option.none⟩ 0 0 0 _ _ rfl

/-- C2: when the embedding gateway raises on the request text, the request
fails with the 502 embedding error and no store upsert call appears in the
trace, so nothing is written. -/
theorem embed_failure_prevents_store_write (req : UpsertTextRequest)
    (nowMs : Nat) (now elapsedMs : Rat)
    (embed : String → Except String (List Rat))
    (storeUpsert : DocumentRecord → Except StoreExc Unit) (e : String)
    (hembed : embed req.text = .error e) :
    (upsert_text true req nowMs now elapsedMs embed storeUpsert).1
      = .error .embeddingUnavailable
    ∧ statusCode .embeddingUnavailable = 502
    ∧ ∀ rec, GatewayCall.upsertCall rec
        ∉ (upsert_text true req nowMs now elapsedMs embed storeUpsert).2 := by
  have hrun : upsert_text true req nowMs now elapsedMs embed storeUpsert
      = (.error .embeddingUnavailable, [.embedCall req.text]) := by
    unfold upsert_text
    simp [hembed]
  refine ⟨by rw [hrun], rfl, ?_⟩
  intro rec hmem
  rw [hrun] at hmem
  simp at hmem

/-- Witness for C2 with a concrete failing embedding oracle. -/
theorem embed_failure_witness :
    (upsert_text true ⟨"hello", Option.none, some "doc-1"⟩ 0 0 0
      (fun _ => Except.error "boom") (fun _ => Except.ok ())).1
      = .error .embeddingUnavailable :=
  (embed_failure_prevents_store_write ⟨"hello", Option.none, some "doc-1"⟩
    0 0 0 (fun _ => Except.error "boom") (fun _ => Except.ok ()) "boom"
    rfl).1

/-- C3: sanitize_metadata is a total function of this model (it raises no
error), and every value of the mapping it returns belongs to the closed
set modelled by isPrim: string, integer, float, boolean or null. -/
theorem sanitize_metadata_values_always_primitive
    (m : List (String × PyVal)) :
    ((sanitize_metadata m).all (fun kv => isPrim kv.2)) = true := by
  rw [List.all_eq_true]
  intro kv hkv
  by_cases hm : m.isEmpty
  · unfold sanitize_metadata at hkv
    rw [if_pos hm] at hkv
    rw [List.isEmpty_iff.mp hm] at hkv
    cases hkv
  · rw [sanitize_metadata_shape m hm] at hkv
    have hall : ∀ kv2 ∈ (m.foldl sanitizeStep ([], [])).1,
        isPrim kv2.2 = true :=
      allPrim_foldl m [] [] (by intro kv2 h2; cases h2)
    by_cases hn : (m.foldl sanitizeStep ([], [])).2.isEmpty
    · rw [if_pos hn] at hkv
      exact hall kv hkv
    · rw [if_neg hn] at hkv
      refine allPrim_dictSet _ _ _ hall ?_ kv hkv
      rfl

/-- C4: a metadata mapping whose values are all already primitive is
returned unchanged by sanitize_metadata, with no conversion-note key
added. -/
theorem sanitize_metadata_identity_on_primitive
    (m : List (String × PyVal)) (hnodup : (keys m).Nodup)
    (hprim : ∀ kv ∈ m, isPrim kv.2 = true) :
    sanitize_metadata m = m := by
  have hnotes : conversionNotes m = [] := by
    induction m with
    | nil => rfl
    | cons hd r ih =>
      have hhd := hprim hd (List.mem_cons_self _ _)
      have hr := ih (by
          have := hnodup
          simp only [keys, List.map_cons, List.nodup_cons] at this
          exact this.2)
        (fun kv h2 => hprim kv (List.mem_cons_of_mem _ h2))
      unfold conversionNotes at hr ⊢
      simp [sanitizeValue_of_prim hd.1 hd.2 hhd, hr]
  have hentries : sanitizedEntries m = m := by
    unfold sanitizedEntries
    conv_rhs => rw [← List.map_id m]
    refine List.map_congr_left ?_
    intro kv hkv
    rw [sanitizeValue_of_prim kv.1 kv.2 (hprim kv hkv)]
    rfl
  rw [sanitize_metadata_eq m hnodup, hnotes, hentries]
  simp

/-- Witness for C4 at a concrete all-primitive metadata mapping. -/
theorem sanitize_identity_witness :
    sanitize_metadata
      [("category", PyVal.str "technology"), ("priority", PyVal.int 1),
       ("published", PyVal.bool true)]
    = [("category", PyVal.str "technology"), ("priority", PyVal.int 1),
       ("published", PyVal.bool true)] :=
  sanitize_metadata_identity_on_primitive _ (by decide) (by decide)

/-- C6: the generated id is the MD5 content hash of the text joined by an
underscore to the decimal millisecond timestamp; in particular the same
text at two different millisecond timestamps yields two distinct ids. -/
theorem generated_id_hash_underscore_timestamp_distinct (text : String)
    (ms ms1 ms2 : Nat) (h : ms1 ≠ ms2) :
    generate_id text ms = md5Hex text ++ "_" ++ Nat.repr ms
    ∧ generate_id text ms1 ≠ generate_id text ms2 :=
  ⟨rfl, generate_id_ne text ms1 ms2 h⟩

/-- Witness for C6 at concrete distinct timestamps. -/
theorem generated_id_distinct_witness :
    generate_id "hello" 1700000000000 ≠ generate_id "hello" 1700000000001 :=
  (generated_id_hash_underscore_timestamp_distinct "hello" 0 1700000000000
    1700000000001 (by decide)).2

/-- Counterexample to C5 as stated: for the mapping whose only key is the
reserved note key _metadata_conversions itself, with a list value, the
sanitized mapping does not carry the comma-joined string "1, 2" at that
key: the final note assignment of line 105 overwrites it.  So the joined
string is absent from the returned mapping. -/
theorem sanitize_list_under_note_key_not_joined :
    dlookup
      (sanitize_metadata
        [("_metadata_conversions", PyVal.list [PyVal.int 1, PyVal.int 2])])
      "_metadata_conversions"
      = some (.str ("Applied conversions: \x27_metadata_conversions\x27: "
          ++ "list -> comma-separated string"))
    ∧ ("Applied conversions: \x27_metadata_conversions\x27: "
          ++ "list -> comma-separated string") ≠ "1, 2" :=
  ⟨rfl, by decide⟩

/-- C5 (amended): for a mapping without duplicate keys, a list value under
any key other than the reserved _metadata_conversions key is replaced by
the comma-joined string of the str() forms of its elements, and the
conversion note mentions that key. -/
theorem sanitize_list_value_joined_and_noted (m : List (String × PyVal))
    (k : String) (xs : List PyVal) (hnodup : (keys m).Nodup)
    (hk : k ≠ "_metadata_conversions")
    (hmem : (k, PyVal.list xs) ∈ m) :
    dlookup (sanitize_metadata m) k
      = some (.str (String.intercalate ", " (xs.map pyStr)))
    ∧ dlookup (sanitize_metadata m) "_metadata_conversions"
      = some (.str ("Applied conversions: "
          ++ String.intercalate "; " (conversionNotes m)))
    ∧ ("\x27" ++ k ++ "\x27: list -> comma-separated string")
        ∈ conversionNotes m := by
  have hnote : ("\x27" ++ k ++ "\x27: list -> comma-separated string")
      ∈ conversionNotes m :=
    mem_conversionNotes m k (PyVal.list xs) _ hmem rfl
  have hne : ¬ (conversionNotes m).isEmpty = true := by
    intro hc
    rw [List.isEmpty_iff.mp hc] at hnote
    cases hnote
  rw [sanitize_metadata_eq m hnodup, if_neg hne]
  refine ⟨?_, dlookup_dictSet_self _ _ _, hnote⟩
  rw [dlookup_dictSet_ne _ _ _ _ hk]
  exact dlookup_eq_of_mem_nodup (sanitizedEntries m) k _
    (by rw [keys_sanitizedEntries]; exact hnodup)
    (mem_sanitizedEntries m k (PyVal.list xs) hmem)

/-- Witness for the amended C5, at the keywords example of the example
script of the repository. -/
theorem sanitize_list_value_witness :
    dlookup
      (sanitize_metadata
        [("category", PyVal.str "database"),
         ("keywords", PyVal.list [PyVal.str "vector", PyVal.str "ai"])])
      "keywords" = some (PyVal.str "vector, ai") :=
  (sanitize_list_value_joined_and_noted
    [("category", PyVal.str "database"),
     ("keywords", PyVal.list [PyVal.str "vector", PyVal.str "ai"])]
    "keywords" [PyVal.str "vector", PyVal.str "ai"] (by decide) (by decide)
    (by simp)).1

set_option maxRecDepth 100000 in
/-- Counterexample to C7 as stated: when the caller supplies the empty
string as id, the resolved id is a generated hash_timestamp id, not the
caller-supplied string verbatim, because line 212 tests the id for
truthiness and the empty string is falsy. -/
theorem empty_supplied_id_not_used_verbatim :
    (upsert_text true ⟨"hello", Option.none, some ""⟩ 1700000000000 0 0
      (fun _ => Except.ok [1]) (fun _ => Except.ok ())).1
      = .ok ⟨"success", 1,
          ["5d41402abc4b2a76b9719d911017c592_1700000000000"], 0⟩
    ∧ "5d41402abc4b2a76b9719d911017c592_1700000000000" ≠ "" :=
  ⟨rfl, by decide⟩

/-- C7 (amended): when the caller supplies a non-empty id, the resolved id
used for the store upsert and returned in the result is exactly the
caller-supplied string; id generation is reached only when the caller
supplied none or the empty string. -/
theorem supplied_nonempty_id_used_verbatim (req : UpsertTextRequest)
    (nowMs : Nat) (now elapsedMs : Rat)
    (embed : String → Except String (List Rat))
    (storeUpsert : DocumentRecord → Except StoreExc Unit) (i : String)
    (hid : req.id = some i) (hne : i ≠ "") :
    resolveId req.text req.id nowMs = i
    ∧ (∀ rec, GatewayCall.upsertCall rec
        ∈ (upsert_text true req nowMs now elapsedMs embed storeUpsert).2 →
        rec.id = i)
    ∧ (∀ resp,
        (upsert_text true req nowMs now elapsedMs embed storeUpsert).1
          = .ok resp → resp.ids = [i]) := by
  have hres : resolveId req.text req.id nowMs = i := by
    rw [hid]
    simp [resolveId, hne]
  refine ⟨hres, ?_, ?_⟩
  · intro rec hmem
    rw [(upsert_text_upsertCall req nowMs now elapsedMs embed storeUpsert
      rec hmem).1, hres]
  · intro resp hok
    rw [upsert_text_ok_ids req nowMs now elapsedMs embed storeUpsert resp
      hok, hres]

/-- Witness for the amended C7 at a concrete non-empty caller id. -/
theorem supplied_nonempty_id_witness :
    resolveId "hello" (some "custom-doc-001") 5 = "custom-doc-001" :=
  (supplied_nonempty_id_used_verbatim ⟨"hello", Option.none,
    some "custom-doc-001"⟩ 5 0 0 (fun _ => Except.ok [])
    (fun _ => Except.ok ()) "custom-doc-001" rfl (by decide)).1

/-- C8: for a valid request the stored document text is the stripped input
text and the metadata handed to sanitization is the caller mapping plus
upserted_at plus text_length; the sanitized metadata still carries
text_length equal to the character count of the stripped text. -/
theorem stored_text_trimmed_and_text_length (raw : RawUpsertRequest)
    (nowMs : Nat) (now elapsedMs : Rat)
    (embed : String → Except String (List Rat))
    (storeUpsert : DocumentRecord → Except StoreExc Unit) (vec : List Rat)
    (hlen1 : 1 ≤ raw.text.length) (hlen2 : raw.text.length ≤ 50000)
    (hne : pyStrip raw.text ≠ "")
    (hnodup : (keys (raw.metadata.getD [])).Nodup)
    (hembed : embed (pyStrip raw.text) = .ok vec) :
    (handle_upsert true raw nowMs now elapsedMs embed storeUpsert).2
      = [GatewayCall.embedCall (pyStrip raw.text),
         GatewayCall.upsertCall
           ⟨resolveId (pyStrip raw.text) raw.id nowMs, vec,
            pyStrip raw.text,
            sanitize_metadata (baseMetadata (raw.metadata.getD []) now
              (pyStrip raw.text).length)⟩]
    ∧ dlookup (sanitize_metadata (baseMetadata (raw.metadata.getD []) now
        (pyStrip raw.text).length)) "text_length"
      = some (.int (pyStrip raw.text).length) := by
  have hne2 : raw.text ≠ "" := by
    intro h0
    rw [h0] at hlen1
    simp [String.length] at hlen1
  have hval : validateRequest raw
      = .ok ⟨pyStrip raw.text, raw.metadata, raw.id⟩ := by
    unfold validateRequest
    rw [if_neg (by simp; omega)]
    unfold validate_text
    rw [if_neg (by simp [hne, hne2])]
  constructor
  · unfold handle_upsert
    rw [hval]
    unfold upsert_text
    simp only [Bool.not_true, Bool.false_eq_true, if_false]
    simp only [hembed]
    split <;> rfl
  · have hbasenodup :
        (keys (baseMetadata (raw.metadata.getD []) now
          (pyStrip raw.text).length)).Nodup := by
      unfold baseMetadata
      exact nodup_keys_dictSet _ _ _ (nodup_keys_dictSet _ _ _ hnodup)
    refine dlookup_sanitize_metadata _ _ _ hbasenodup (by decide) ?_ rfl
    exact mem_of_dlookup _ _ _ (dlookup_dictSet_self _ _ _)

/-- Witness for C8 at the "  hello world  " example of the spec: the
stored text_length is 11. -/
theorem stored_text_trimmed_witness :
    dlookup (sanitize_metadata (baseMetadata (((Option.none :
        Option (List (String × PyVal))).getD [])) 0
      (pyStrip "  hello world  ").length)) "text_length"
      = some (.int 11) :=
  (stored_text_trimmed_and_text_length
    ⟨"  hello world  ", Option.none, some "doc-1"⟩ 0 0 0
    (fun _ => Except.ok [1]) (fun _ => Except.ok ()) [1]
    (by decide) (by decide) (by decide) (by decide) rfl).2

/-- Counterexample to C9 as stated: the handler catches only ChromaError
(line 249); a store upsert failing with any exception outside ChromaError
(for instance a transport-level connection error) is mapped by the generic
handler of line 273 to the 500 internal error, not to the 502
StoreUnavailable gateway error. -/
theorem store_non_chroma_exception_maps_to_500 :
    (upsert_text true ⟨"hello", Option.none, some "doc-1"⟩ 0 0 0
      (fun _ => Except.ok [1])
      (fun _ => Except.error (.otherExc "connection reset by peer"))).1
      = .error .internalError
    ∧ statusCode .internalError = 500
    ∧ UpsertError.internalError ≠ UpsertError.storeUnavailable :=
  ⟨rfl, rfl, by decide⟩

/-- C9 (amended): a store upsert failing with a ChromaError, the error
type the ChromaDB client raises for transport, auth or server errors that
it surfaces, is mapped outward as the 502 StoreUnavailable gateway
error. -/
theorem chroma_error_maps_to_store_unavailable_502
    (req : UpsertTextRequest) (nowMs : Nat) (now elapsedMs : Rat)
    (embed : String → Except String (List Rat))
    (storeUpsert : DocumentRecord → Except StoreExc Unit)
    (vec : List Rat) (msg : String)
    (hembed : embed req.text = .ok vec)
    (hstore : ∀ rec, storeUpsert rec = .error (.chromaError msg)) :
    (upsert_text true req nowMs now elapsedMs embed storeUpsert).1
      = .error .storeUnavailable
    ∧ statusCode .storeUnavailable = 502 := by
  constructor
  · unfold upsert_text
    simp [hembed, hstore]
  · rfl

/-- Witness for the amended C9 with a concrete ChromaError-raising
store. -/
theorem chroma_error_502_witness :
    (upsert_text true ⟨"hello", Option.none, some "doc-1"⟩ 0 0 0
      (fun _ => Except.ok [1])
      (fun _ => Except.error (.chromaError "server error"))).1
      = .error .storeUnavailable :=
  (chroma_error_maps_to_store_unavailable_502
    ⟨"hello", Option.none, some "doc-1"⟩ 0 0 0 (fun _ => Except.ok [1])
    (fun _ => Except.error (.chromaError "server error")) [1]
    "server error" rfl (fun _ => rfl)).1

/-- C10: every record handed to the store upsert carries the
server-computed upserted_at and text_length values, overwriting any
caller-supplied values under those two keys, while every other
caller-supplied key enters sanitization with its value unchanged. -/
theorem server_fields_overwrite_caller_frame (req : UpsertTextRequest)
    (nowMs : Nat) (now elapsedMs : Rat)
    (embed : String → Except String (List Rat))
    (storeUpsert : DocumentRecord → Except StoreExc Unit) (k : String)
    (hnodup : (keys (req.metadata.getD [])).Nodup)
    (hk1 : k ≠ "upserted_at") (hk2 : k ≠ "text_length") :
    (∀ rec, GatewayCall.upsertCall rec
        ∈ (upsert_text true req nowMs now elapsedMs embed storeUpsert).2 →
        dlookup rec.metadata "upserted_at" = some (.float now)
        ∧ dlookup rec.metadata "text_length"
          = some (.int req.text.length))
    ∧ dlookup (baseMetadata (req.metadata.getD []) now req.text.length) k
        = dlookup (req.metadata.getD []) k := by
  constructor
  · intro rec hmem
    obtain ⟨_, _, hmeta, _⟩ := upsert_text_upsertCall req nowMs now
      elapsedMs embed storeUpsert rec hmem
    rw [hmeta]
    have hbasenodup :
        (keys (baseMetadata (req.metadata.getD []) now
          req.text.length)).Nodup := by
      unfold baseMetadata
      exact nodup_keys_dictSet _ _ _ (nodup_keys_dictSet _ _ _ hnodup)
    constructor
    · refine dlookup_sanitize_metadata _ _ _ hbasenodup (by decide) ?_ rfl
      refine mem_of_dlookup _ _ _ ?_
      unfold baseMetadata
      rw [dlookup_dictSet_ne _ _ _ _ (by decide)]
      exact dlookup_dictSet_self _ _ _
    · refine dlookup_sanitize_metadata _ _ _ hbasenodup (by decide) ?_ rfl
      exact mem_of_dlookup _ _ _ (dlookup_dictSet_self _ _ _)
  · unfold baseMetadata
    rw [dlookup_dictSet_ne _ _ _ _ hk2, dlookup_dictSet_ne _ _ _ _ hk1]

/-- Witness for C10: a caller key distinct from the two server keys enters
sanitization unchanged. -/
theorem server_fields_frame_witness :
    dlookup (baseMetadata [("category", PyVal.str "technology")] 0 5)
      "category"
      = dlookup [("category", PyVal.str "technology")] "category" :=
  (server_fields_overwrite_caller_frame
    ⟨"hello", some [("category", PyVal.str "technology")], Option.none⟩
    0 0 0 (fun _ => Except.ok []) (fun _ => Except.ok ()) "category"
    (by decide) (by decide) (by decide)).2
